import Mathlib

/-
Shallow embedding of src/extreme_optics_influxdb.py (an ExtremeXOS on-box
telemetry script, Python 2.7).

Modelling conventions:
* An XML fragment (one `show_ports_transceiver` element) is embedded as the
  ordered list of its subelements' (tag, text) pairs; `findall tag` returns
  the texts of the children with that tag, in document order, matching
  ElementTree semantics.
* Python exceptions (IndexError from `findall(..)[0]`, ValueError from
  `int(..)`, KeyError from `channel['rx-power']`, StopIteration from
  `iter.next()`) are embedded as `Option`: `none` means the Python code
  raises and the run aborts.
* Python 2.7 dicts iterate in hash-table slot order, not insertion order.
  `pyHash` below is the CPython 2.7 string hash (64-bit build; the orders
  derived here for the script's keys coincide with the 32-bit build) and
  `dictOrder` replays CPython's open-addressing insertion into the initial
  8-slot table (PyDict_MINSIZE = 8; no resize below 6 entries, and every
  dict in this script holds at most 4 string keys), so `dictOrder keys`
  is the `.keys()` iteration order of a dict whose keys were inserted in
  the given sequence.  The `channels` dict is keyed by the consecutive
  ints 0..n-1, which CPython iterates in ascending order (slot = i & mask
  with i < table size); it is embedded as a list in ascending key order.
* `re.match('^\d+:\d+$', s)` is embedded with Python semantics for `$`:
  it also matches just before a single newline at the end of the string.
-/

/-- CPython 2.7 string hash (64-bit build), returned as the unsigned
64-bit value used for slot selection and probing. -/
def pyHash (s : String) : Nat :=
  match s.data with
  | [] => 0
  | c :: _ =>
    let M : Nat := 2 ^ 64
    let x0 : Nat := (c.toNat <<< 7) % M
    let x : Nat := s.data.foldl (fun x c => ((1000003 * x) % M) ^^^ c.toNat) x0
    let x := x ^^^ s.length
    if x = M - 1 then M - 2 else x

/-- CPython open-addressing probe loop for inserting a key into an
8-slot table (j := 5*j + 1 + perturb; perturb >>= 5).  The fuel bound 64
exceeds the worst case for a table that is never full. -/
def probeInsGo (k : String) : Nat → Nat → Nat → List (Option String) → List (Option String)
  | 0, _, _, t => t
  | fuel + 1, j, perturb, t =>
    match t.get? j with
    | some none => t.set j (some k)
    | some (some k') =>
      if k' = k then t.set j (some k)
      else probeInsGo k fuel ((5 * j + 1 + perturb) % 8) (perturb >>> 5) t
    | none => t

/-- Insert one key into an 8-slot CPython 2.7 dict table. -/
def probeIns (table : List (Option String)) (k : String) : List (Option String) :=
  probeInsGo k 64 (pyHash k % 8) (pyHash k) table

/-- Iteration order of a CPython 2.7 dict (at most 5 string keys, so the
table stays at its initial 8 slots) whose keys were inserted in the given
sequence: keys listed in ascending slot order. -/
def dictOrder (keys : List String) : List String :=
  let table := keys.foldl probeIns (List.replicate 8 none)
  table.foldr (fun s acc => match s with | some k => k :: acc | none => acc) []

/-- One parsed `show_ports_transceiver` XML fragment: its subelements as
(tag, text) pairs in document order. -/
abbrev Fragment := List (String × String)

/-- ElementTree `elem.findall(tag)` restricted to child tags: the texts of
the children with the given tag, in document order. -/
def findall (f : Fragment) (tag : String) : List String :=
  (f.filter (fun kv => kv.1 = tag)).map (fun kv => kv.2)

/-- The guard on line 71 of the source:
`len(port) > 0 and len(port.findall('portErrorString')) == 0 and
port.findall('partNumberIsValid')[0].text == '1'`.
`none` models the IndexError raised when the first two conjuncts pass but
`partNumberIsValid` is absent. -/
def evalCond (f : Fragment) : Option Bool :=
  if f.length = 0 then some false
  else if (findall f "portErrorString").length ≠ 0 then some false
  else match (findall f "partNumberIsValid").head? with
    | none => none
    | some t => some (t = "1")

/-- Characters stripped by Python 2 `int()` before parsing. -/
def pyIntWs : List Char := [' ', '\t', '\n', '\r', '\x0b', '\x0c']

/-- Decimal digit run to a Nat. -/
def digitsToNat (l : List Char) : Nat :=
  l.foldl (fun n c => 10 * n + (c.toNat - 48)) 0

/-- Python 2 `int(s)`: optional surrounding whitespace, optional sign,
nonempty decimal digit run; `none` models ValueError. -/
def pyInt (s : String) : Option Int :=
  let l := ((s.data.dropWhile pyIntWs.contains).reverse.dropWhile pyIntWs.contains).reverse
  match l with
  | '-' :: ds =>
    if ds ≠ [] ∧ ds.all Char.isDigit then some (-(digitsToNat ds : Int)) else none
  | '+' :: ds =>
    if ds ≠ [] ∧ ds.all Char.isDigit then some (digitsToNat ds) else none
  | ds =>
    if ds ≠ [] ∧ ds.all Char.isDigit then some (digitsToNat ds) else none

/-- Matches `\d+$`: a nonempty digit run ending the string. -/
def dcdTail (l : List Char) : Bool :=
  !l.isEmpty && l.all Char.isDigit

/-- Matches `\d*:\d+$`: optional further digits, then a colon, then `dcdTail`. -/
def dcdAfterFirst : List Char → Bool
  | [] => false
  | c :: t => if c = ':' then dcdTail t else c.isDigit && dcdAfterFirst t

/-- Matches the whole character list against `\d+:\d+$` with both ends
anchored: a nonempty digit run, a colon, a nonempty digit run. -/
def dcdChars : List Char → Bool
  | [] => false
  | c :: t => c.isDigit && dcdAfterFirst t

/-- Removes one trailing newline, if present. -/
def dropTrailingNL (l : List Char) : List Char :=
  if l.getLast? = some '\n' then l.dropLast else l

/-- Python `re.match('^\d+:\d+$', s)` as a Bool.  Per Python semantics,
`$` also matches just before a single newline at the end of the string, so
the pattern accepts `digits:digits` optionally followed by one `'\n'`. -/
def matchPortPattern (s : String) : Bool :=
  dcdChars (dropTrailingNL s.data)

/-- Modelled from the spec: the plain `digits:digits` pattern the spec
describes for port-name normalization, with no trailing-newline allowance.
Used to compare the spec's wording against the source's regex. -/
def specDigitsColonDigits (s : String) : Bool :=
  dcdChars s.data

/-- Lines 74-76 of the source: prefix `"1:"` unless the raw identifier
matches the regex. -/
def normalizePortName (s : String) : String :=
  if matchPortPattern s then s else "1:" ++ s

/-- The `METRICS` dict literal of the source, as (source tag, pretty key)
pairs in the order written. -/
def METRICS : List (String × String) :=
  [("txPower", "tx-power"), ("rxPower", "rx-power"), ("txBiasCurrent", "tx-current")]

/-- Iteration order of `METRICS.keys()` in CPython 2.7. -/
def METRICSKeysOrder : List String :=
  dictOrder (METRICS.map Prod.fst)

/-- Value of `METRICS[metric]` for a key of the dict. -/
def prettyOf (src : String) : String :=
  match METRICS.lookup src with
  | some p => p
  | none => ""

/-- The pretty metric key set every channel record carries, in the order
the keys are inserted into the per-channel dict. -/
def chanKeyList : List String := ["tx-power", "rx-power", "tx-current"]

/-- One per-channel dict: pretty metric keys mapped to decimal-string
values, as an association list in insertion order. -/
abbrev ChannelRecord := List (String × String)

/-- One entry of `ports_data`: the per-port dict.  `tv` holds the
`temperature` and `voltage` entries, present together exactly when the
channel loop ran at least once (the source can only ever set both or
crash, so pairing them is faithful).  `channels` is the channels dict as
a list in ascending key order (CPython iterates the consecutive int keys
0..n-1 in ascending order). -/
structure PortRecord where
  name : String
  tv : Option (String × String)
  channels : List (Nat × ChannelRecord)
deriving DecidableEq, Repr

/-- Lines 88-90 of the source for one fragment: read the three metric
texts in `METRICS.keys()` order, building the channel dict; `none` models
the IndexError when a tag is absent. -/
def readMetricsKeys : List String → Fragment → Option ChannelRecord
  | [], _ => some []
  | src :: t, f =>
    match (findall f src).head?, readMetricsKeys t f with
    | some v, some rest => some ((prettyOf src, v) :: rest)
    | _, _ => none

/-- The channel-dict contents produced for one fragment. -/
def readMetrics (f : Fragment) : Option ChannelRecord :=
  readMetricsKeys METRICSKeysOrder f

/-- Metric reading over a run of consecutive fragments. -/
def readMetricsList : List Fragment → Option (List ChannelRecord)
  | [] => some []
  | f :: t =>
    match readMetrics f, readMetricsList t with
    | some c, some cs => some (c :: cs)
    | _, _ => none

/-- Lines 82-92 of the source: the channel loop for one port.  The first
fragment is channel 0; the remaining `n - 1` fragments are pulled from the
iterator unconditionally.  Returns the channels dict and the number of
fragments consumed from the iterator (`n - 1` on success).  `none` models
StopIteration (iterator exhausted) or a missing metric tag; Python raises
in both situations, in whichever order it reaches them, and either way
the run aborts. -/
def readGroup (first : Fragment) (n : Nat) (rest : List Fragment) :
    Option (List (Nat × ChannelRecord) × Nat) :=
  if n = 0 then some ([], 0)
  else if rest.length < n - 1 then none
  else
    match readMetricsList (first :: rest.take (n - 1)) with
    | none => none
    | some chans => some ((List.range n).zip chans, n - 1)

/-- Lines 72-92 of the source: the processing of a fragment that passed
the presence guard.  Reads and normalizes the port name (line 72-76),
parses `numChannels` (line 79), reads `temp` and `voltageAux1` from the
first fragment when the channel loop runs at least once (lines 85-87),
and runs the channel loop (`readGroup`).  Returns the port record and
the number of fragments consumed from the iterator; `none` models the
exceptions raised along the way. -/
def readStart (p : Fragment) (rest : List Fragment) : Option (PortRecord × Nat) :=
  match (findall p "port").head? with
  | none => none
  | some rawName =>
    match ((findall p "numChannels").head?).bind pyInt with
    | none => none
    | some nc =>
      match (if nc.toNat = 0 then some none
             else match (findall p "temp").head?, (findall p "voltageAux1").head? with
               | some t, some v => some (some (t, v))
               | _, _ => none : Option (Option (String × String))) with
      | none => none
      | some tv =>
        match readGroup p nc.toNat rest with
        | none => none
        | some (chans, k) =>
          some ({ name := normalizePortName rawName, tv := tv, channels := chans }, k)

/-- The outer loop of `get_optics_data` (lines 66-96 of the source) over
`ports_parsed_iter`, with an explicit bound on the number of outer
iterations.  A fragment failing the presence guard is skipped; a
fragment passing it starts a port record whose channel loop consumes
`numChannels - 1` further fragments.  `none` models any uncaught
exception (missing tag, unparseable `numChannels`, iterator exhaustion
mid-group).  Every outer iteration consumes at least one fragment, so
any bound exceeding the fragment count makes the 0-fuel branch
unreachable; `get_optics_go_irrel` below proves the result independent
of the bound. -/
def get_optics_go : Nat → List Fragment → Option (List PortRecord)
  | _, [] => some []
  | 0, _ :: _ => none
  | fuel + 1, p :: rest =>
    match evalCond p with
    | none => none
    | some false => get_optics_go fuel rest
    | some true =>
      match readStart p rest with
      | none => none
      | some (rec, k) =>
        match get_optics_go fuel (rest.drop k) with
        | none => none
        | some ports => some (rec :: ports)

/-- Lines 66-96 of the source (`get_optics_data`), starting from the
parsed fragment list. -/
def get_optics_data (fs : List Fragment) : Option (List PortRecord) :=
  get_optics_go (fs.length + 1) fs

/-- Dict lookup on an association list: the value at the first occurrence
of the key. -/
def lookupKey : List (String × String) → String → Option String
  | [], _ => none
  | kv :: t, k => if kv.1 = k then some kv.2 else lookupKey t k

/-- Dict assignment of an existing key on an association list: replace the
value at the first occurrence of the key, keeping its position (CPython
reassignment of a present key keeps its slot). -/
def setKey : List (String × String) → String → String → List (String × String)
  | [], _, _ => []
  | kv :: t, k, v => if kv.1 = k then (k, v) :: t else kv :: setKey t k v

/-- Lines 107-108 of the source, for one channel dict: rewrite a
sentinel `tx-power`; operates on the dict as left by the `rx-power`
statements.  `none` models the KeyError when the key is absent. -/
def fixChannelTx (c1 : ChannelRecord) : Option ChannelRecord :=
  match lookupKey c1 "tx-power" with
  | none => none
  | some tx => some (if tx = "-9999.000000" then setKey c1 "tx-power" "0.00" else c1)

/-- Lines 104-108 of the source, for one channel dict: rewrite a sentinel
`rx-power` (lines 105-106), then a sentinel `tx-power` (lines 107-108).
`none` models the KeyError when a key is absent. -/
def fixChannel (c : ChannelRecord) : Option ChannelRecord :=
  match lookupKey c "rx-power" with
  | none => none
  | some rx =>
    fixChannelTx (if rx = "-9999.000000" then setKey c "rx-power" "-40.000000" else c)

/-- The sanitizer's inner loop over a port's channels dict. -/
def fixChannels : List (Nat × ChannelRecord) → Option (List (Nat × ChannelRecord))
  | [] => some []
  | ic :: t =>
    match fixChannel ic.2, fixChannels t with
    | some c, some t' => some ((ic.1, c) :: t')
    | _, _ => none

/-- Lines 100-109 of the source (`fix_extreme_inf_values`). -/
def fix_extreme_inf_values : List PortRecord → Option (List PortRecord)
  | [] => some []
  | p :: t =>
    match fixChannels p.channels, fix_extreme_inf_values t with
    | some chs, some t' => some ({ p with channels := chs } :: t')
    | _, _ => none

/-- The key insertion sequence of the per-port dict: `name` (line 72),
`channels` (line 78), then `temperature` and `voltage` (lines 86-87) when
the channel loop ran. -/
def portDictKeys (p : PortRecord) : List String :=
  ["name", "channels"] ++ (match p.tv with | some _ => ["temperature", "voltage"] | none => [])

/-- Value of `port[key]` for the field keys surviving the encoder's filter. -/
def portFieldValue (p : PortRecord) (k : String) : String :=
  match p.tv with
  | some tv => if k = "temperature" then tv.1 else if k = "voltage" then tv.2 else ""
  | none => ""

/-- Line 120 of the source: the port fields, iterating `port.keys()` in
CPython 2.7 dict order and dropping `name` and `channels`. -/
def portFields (p : PortRecord) : String :=
  String.intercalate ","
    (((dictOrder (portDictKeys p)).filter (fun k => !(k == "name" || k == "channels"))).map
      (fun k => k ++ "=" ++ portFieldValue p k))

/-- Lines 126-128 of the source: the channel fields, iterating
`chan_data.keys()` in CPython 2.7 dict order. -/
def chanFields (c : ChannelRecord) : String :=
  String.intercalate ","
    ((dictOrder (c.map Prod.fst)).map (fun k => k ++ "=" ++ ((lookupKey c k).getD "")))

/-- Lines 118-121 of the source: one `optics` line. -/
def portLine (device : String) (p : PortRecord) : String :=
  "optics," ++ ("device=" ++ device ++ ",port=" ++ p.name) ++ " " ++ portFields p

/-- Lines 123-130 of the source: one `optics_channels` line. -/
def chanLine (device : String) (p : PortRecord) (ic : Nat × ChannelRecord) : String :=
  "optics_channels," ++ ("device=" ++ device ++ ",port=" ++ p.name) ++ ",channel=" ++
    toString ic.1 ++ " " ++ chanFields ic.2

/-- The `line_data` list built by `create_lineprotocol_data`: for each
port, its `optics` line followed by its `optics_channels` lines. -/
def line_data (ports : List PortRecord) (device : String) : List String :=
  ports.foldl (fun acc p => (acc ++ [portLine device p]) ++ p.channels.map (chanLine device p)) []

/-- Lines 114-132 of the source (`create_lineprotocol_data`). -/
def create_lineprotocol_data (ports : List PortRecord) (device : String) : String :=
  String.intercalate "\n" (line_data ports device)

/-- The observable behavior of the network stack during one
`post_influx_data` call: whether connection establishment or request
sending raises (with the exception's repr), whether reading the response
raises, and otherwise the response status. -/
structure NetBehavior where
  requestExc : Option String
  getresponseRaises : Bool
  status : Nat
deriving DecidableEq, Repr

/-- The log message of line 166 of the source. -/
def connFailMsg (host port e : String) : String :=
  "Unable to create connection to " ++ host ++ ":" ++ port ++ " - " ++ e

/-- The log message of line 172 of the source. -/
def postFailMsg (host port : String) : String :=
  "Unable to POST data to " ++ host ++ ":" ++ port

/-- Lines 152-173 of the source (`post_influx_data`), abstracted over the
network behavior.  Result: the log messages emitted, and whether the
function returned normally (`false` models an exception propagating to
the caller).  The `try` block covers connection creation and
`conn.request` only; `conn.getresponse()` sits outside it. -/
def post_influx_data (host port : String) (b : NetBehavior) : List String × Bool :=
  match b.requestExc with
  | some e => ([connFailMsg host port e], true)
  | none =>
    if b.getresponseRaises then ([], false)
    else if b.status ≠ 204 then ([postFailMsg host port], true)
    else ([], true)

/-- Lines 193-199 of the source: the `__main__` pipeline after
`get_optics_data` returns.  `some payload` means `post_influx_data` is
invoked with that payload; `none` means it is never invoked (falsy data,
or the sanitizer raising). -/
def main_payload (optics : Option (List PortRecord)) (device : String) : Option String :=
  match optics with
  | none => none
  | some d =>
    if d.isEmpty then none
    else
      match fix_extreme_inf_values d with
      | none => none
      | some fd => some (create_lineprotocol_data fd device)

/-- The per-value rewrite the spec describes for the sanitizer: a
sentinel `rx-power` becomes the floor `-40.000000`, a sentinel `tx-power`
becomes `0.00`, everything else is untouched. -/
def sanitizeVal (k v : String) : String :=
  if k = "rx-power" ∧ v = "-9999.000000" then "-40.000000"
  else if k = "tx-power" ∧ v = "-9999.000000" then "0.00"
  else v

/-- Modelled from the spec: `sanitize(ports) -> ports` as a pure value
transform of the same shape, rewriting only the two sentinel values and
touching nothing else.  Used to compare the source's
`fix_extreme_inf_values` against the spec's description. -/
def specSanitize (data : List PortRecord) : List PortRecord :=
  data.map (fun p =>
    { p with channels := p.channels.map (fun ic =>
        (ic.1, ic.2.map (fun kv => (kv.1, sanitizeVal kv.1 kv.2)))) })

/-- Every channel of every port carries exactly the metric keys
`tx-power`, `rx-power`, `tx-current` (in dict insertion order). -/
def allChannelsKeysOk (ports : List PortRecord) : Bool :=
  ports.all (fun p => p.channels.all (fun ic => ic.2.map Prod.fst == chanKeyList))

/-- One step of a well-formed device report: either a fragment the outer
loop skips, or a port group consisting of its first fragment followed by
the fragments of its remaining channels. -/
inductive OpticItem where
  | skip : Fragment → OpticItem
  | grp : Fragment → List Fragment → OpticItem
deriving DecidableEq, Repr

/-- The fragments an item contributes to the device's flat report. -/
def OpticItem.frags : OpticItem → List Fragment
  | .skip f => [f]
  | .grp f r => f :: r

/-- Whether the item is a port group. -/
def OpticItem.isGrp : OpticItem → Bool
  | .skip _ => false
  | .grp _ _ => true

/-- All three source metric tags are present on the fragment. -/
def metricsPresent (f : Fragment) : Bool :=
  METRICSKeysOrder.all (fun src => ((findall f src).head?).isSome)

/-- Validity of one item of a device report: a skipped fragment is one
the guard of line 71 evaluates to False on; a group's first fragment
passes the guard and carries `port`, a `numChannels` equal to the group
size, `temp` and `voltageAux1`, and every fragment of the group carries
the three metric tags. -/
def itemOk : OpticItem → Bool
  | .skip f => evalCond f == some false
  | .grp f r =>
    (evalCond f == some true) &&
    ((findall f "port").head?).isSome &&
    (((findall f "numChannels").head?).bind pyInt == some ((r.length : Int) + 1)) &&
    ((findall f "temp").head?).isSome &&
    ((findall f "voltageAux1").head?).isSome &&
    (f :: r).all metricsPresent

/-- A valid device report: a sequence of valid items. -/
def seqOk (items : List OpticItem) : Bool :=
  items.all itemOk

/-- The flat fragment sequence a device report produces. -/
def flattenItems (items : List OpticItem) : List Fragment :=
  (items.map OpticItem.frags).flatten

/-- A valid first fragment of a two-channel port on raw port `"3"`. -/
def fragPort2ch : Fragment :=
  [("partNumberIsValid", "1"), ("port", "3"), ("numChannels", "2"),
   ("temp", "30.1"), ("voltageAux1", "3.29"),
   ("txPower", "1.0"), ("rxPower", "-2.0"), ("txBiasCurrent", "5.0")]

/-- The second-channel fragment of a two-channel port. -/
def fragChan : Fragment :=
  [("txPower", "1.1"), ("rxPower", "-2.1"), ("txBiasCurrent", "5.1")]

/-- A valid single-channel port fragment on raw port `"2:1"`. -/
def fragPort1ch : Fragment :=
  [("partNumberIsValid", "1"), ("port", "2:1"), ("numChannels", "1"),
   ("temp", "31.0"), ("voltageAux1", "3.3"),
   ("txPower", "0.5"), ("rxPower", "-1.0"), ("txBiasCurrent", "4.0")]

/-- A fragment carrying an error string (no optic present). -/
def fragError : Fragment :=
  [("portErrorString", "Port not present")]

/-- A fragment carrying an error string and metric readings: invalid for
the outer loop, but consumable by an enclosing group's channel loop. -/
def fragErrorMetrics : Fragment :=
  [("portErrorString", "No optic installed"),
   ("txPower", "66.6"), ("rxPower", "66.7"), ("txBiasCurrent", "66.8")]

/-- The port of the spec's encoder round-trip example. -/
def samplePort : PortRecord :=
  { name := "1:3", tv := some ("35.0", "3.3"),
    channels := [(0, [("tx-power", "1.0"), ("rx-power", "-2.0"), ("tx-current", "5.0")])] }

/-- A port whose only channel reports the sentinel for both powers. -/
def sentinelPort : PortRecord :=
  { name := "1:1", tv := some ("29.9", "3.31"),
    channels := [(0, [("tx-power", "-9999.000000"), ("rx-power", "-9999.000000"),
                      ("tx-current", "5.0")])] }

/-- A valid single-channel port fragment whose receive power reports the
sentinel value. -/
def fragPortSentinel : Fragment :=
  [("partNumberIsValid", "1"), ("port", "7"), ("numChannels", "1"),
   ("temp", "28.0"), ("voltageAux1", "3.3"),
   ("txPower", "0.1"), ("rxPower", "-9999.000000"), ("txBiasCurrent", "6.0")]

/-- The port record the reader builds from `fragPortSentinel`. -/
def portSentinelParsed : PortRecord :=
  { name := "1:7", tv := some ("28.0", "3.3"),
    channels := [(0, [("tx-power", "0.1"), ("rx-power", "-9999.000000"),
                      ("tx-current", "6.0")])] }

/-- The record `portSentinelParsed` after sanitization. -/
def portSentinelFixed : PortRecord :=
  { name := "1:7", tv := some ("28.0", "3.3"),
    channels := [(0, [("tx-power", "0.1"), ("rx-power", "-40.000000"),
                      ("tx-current", "6.0")])] }

/-- A sample valid device report: a two-channel port group, a skipped
error fragment, a one-channel port group. -/
def witnessItems : List OpticItem :=
  [.grp fragPort2ch [fragChan], .skip fragError, .grp fragPort1ch []]

theorem get_optics_go_irrel :
    ∀ (fuel fuel' : Nat) (fs : List Fragment), fs.length < fuel → fs.length < fuel' →
      get_optics_go fuel fs = get_optics_go fuel' fs := by
  intro fuel
  induction fuel with
  | zero => intro fuel' fs h _; exact absurd h (Nat.not_lt_zero _)
  | succ f ih =>
    intro fuel' fs h h'
    match fs, fuel' with
    | [], fuel' => cases fuel' <;> rfl
    | p :: rest, 0 => exact absurd h' (Nat.not_lt_zero _)
    | p :: rest, f' + 1 =>
      have hr : rest.length < f := by simp only [List.length_cons] at h; omega
      have hr' : rest.length < f' := by simp only [List.length_cons] at h'; omega
      simp only [get_optics_go]
      cases hev : evalCond p with
      | none => rfl
      | some b =>
        cases b with
        | false => exact ih f' rest hr hr'
        | true =>
          cases hrs : readStart p rest with
          | none => rfl
          | some out =>
            obtain ⟨rec, k⟩ := out
            have hd : (rest.drop k).length < f := by
              simp only [List.length_drop]; omega
            have hd' : (rest.drop k).length < f' := by
              simp only [List.length_drop]; omega
            simp only [ih f' (rest.drop k) hd hd']

theorem get_optics_data_cons (p : Fragment) (rest : List Fragment) :
    get_optics_data (p :: rest) =
      match evalCond p with
      | none => none
      | some false => get_optics_data rest
      | some true =>
        match readStart p rest with
        | none => none
        | some (rec, k) =>
          match get_optics_data (rest.drop k) with
          | none => none
          | some ports => some (rec :: ports) := by
  show get_optics_go (rest.length + 1 + 1) (p :: rest) = _
  simp only [get_optics_go]
  cases hev : evalCond p with
  | none => rfl
  | some b =>
    cases b with
    | false => rfl
    | true =>
      cases hrs : readStart p rest with
      | none => rfl
      | some out =>
        obtain ⟨rec, k⟩ := out
        have he : get_optics_go (rest.length + 1) (rest.drop k) =
            get_optics_data (rest.drop k) := by
          apply get_optics_go_irrel
          · simp only [List.length_drop]; omega
          · simp only [List.length_drop]; omega
        simp only [he]

/-- Claim C10: when the reader returns no data (`None`, modelled `none`)
or an empty port list, the `if data:` guard of the main block is falsy,
so no sanitization, no encoding and no HTTP request happen: the payload
handed to the transport is `none`, i.e. `post_influx_data` is never
invoked, for every device name. -/
theorem falsy_data_skips_pipeline (device : String) :
    main_payload none device = none ∧ main_payload (some []) device = none :=
  ⟨rfl, rfl⟩

/-- Claim C8 counterexample: with a network behavior whose connection and
request succeed but whose response read (`conn.getresponse()`, line 169,
outside the `try` block) raises, the call surfaces the exception
(returned-normally flag `false`) and logs nothing, contradicting the
claim that any connection-level failure yields exactly one logged
message and a normal return. -/
theorem transport_getresponse_exception_cex :
    ¬ ((post_influx_data "influx.example.org" "8086"
          { requestExc := none, getresponseRaises := true, status := 204 }).2 = true ∧
       (post_influx_data "influx.example.org" "8086"
          { requestExc := none, getresponseRaises := true, status := 204 }).1.length = 1) := by
  decide

/-- Claim C8 amended: status 204 returns success with no failure logged;
a non-204 status logs exactly one failure naming host and port and
returns normally; an exception during connection establishment or
request sending is caught, logged once with host and port, and the
function returns normally; but an exception while reading the response
propagates to the caller unlogged, because `conn.getresponse()` sits
outside the `try` block.  No retry exists in any branch. -/
theorem transport_logging_behavior (host port : String) (b : NetBehavior) :
    (∀ e, b.requestExc = some e →
      post_influx_data host port b = ([connFailMsg host port e], true)) ∧
    (b.requestExc = none → b.getresponseRaises = true →
      post_influx_data host port b = ([], false)) ∧
    (b.requestExc = none → b.getresponseRaises = false → b.status = 204 →
      post_influx_data host port b = ([], true)) ∧
    (b.requestExc = none → b.getresponseRaises = false → b.status ≠ 204 →
      post_influx_data host port b = ([postFailMsg host port], true)) := by
  obtain ⟨re, gr, st⟩ := b
  refine ⟨?_, ?_, ?_, ?_⟩ <;> intros <;> simp_all [post_influx_data]

/-- Claim C8 witness: the four behaviors of `transport_logging_behavior`
evaluated at a concrete host and port. -/
theorem transport_logging_behavior_witness :
    post_influx_data "influx.example.org" "8086"
        { requestExc := some "error(111)", getresponseRaises := false, status := 0 } =
      (["Unable to create connection to influx.example.org:8086 - error(111)"], true) ∧
    post_influx_data "influx.example.org" "8086"
        { requestExc := none, getresponseRaises := true, status := 204 } = ([], false) ∧
    post_influx_data "influx.example.org" "8086"
        { requestExc := none, getresponseRaises := false, status := 204 } = ([], true) ∧
    post_influx_data "influx.example.org" "8086"
        { requestExc := none, getresponseRaises := false, status := 500 } =
      (["Unable to POST data to influx.example.org:8086"], true) := by
  refine ⟨?_, ?_, ?_, ?_⟩
  · exact ((transport_logging_behavior "influx.example.org" "8086" _).1 "error(111)"
      rfl).trans (by decide)
  · exact (transport_logging_behavior "influx.example.org" "8086" _).2.1 rfl rfl
  · exact (transport_logging_behavior "influx.example.org" "8086" _).2.2.1 rfl rfl rfl
  · exact ((transport_logging_behavior "influx.example.org" "8086" _).2.2.2 rfl rfl
      (by decide)).trans (by decide)

/-- Claim C3 counterexample: for the spec's example port, the encoder
does not produce the claimed field orders `temperature,voltage` and
`tx-power,rx-power,tx-current`, because CPython 2.7 dicts iterate in
hash order, not insertion order. -/
theorem encoder_example_field_order_cex :
    create_lineprotocol_data [samplePort] "sw01" ≠
      "optics,device=sw01,port=1:3 temperature=35.0,voltage=3.3\noptics_channels,device=sw01,port=1:3,channel=0 tx-power=1.0,rx-power=-2.0,tx-current=5.0" := by
  decide

/-- Claim C3 amended: for the spec's example port the encoder emits
exactly the claimed two lines and values, but with the field orders the
CPython 2.7 dict hash order dictates: `voltage` before `temperature` and
`rx-power`, `tx-power`, `tx-current`. -/
theorem encoder_example_actual_output :
    create_lineprotocol_data [samplePort] "sw01" =
      "optics,device=sw01,port=1:3 voltage=3.3,temperature=35.0\noptics_channels,device=sw01,port=1:3,channel=0 rx-power=-2.0,tx-power=1.0,tx-current=5.0" := by
  decide

/-- Claim C2 counterexample: `fragErrorMetrics` carries an error string,
yet when it follows the first fragment of a two-channel port it is
consumed by the channel loop (line 92 advances the iterator with no
validity check) and its readings become channel 1 of the port record —
it is not skipped. -/
theorem error_fragment_consumed_as_channel_cex :
    findall fragErrorMetrics "portErrorString" = ["No optic installed"] ∧
    get_optics_data [fragPort2ch, fragErrorMetrics] =
      some [{ name := "1:3", tv := some ("30.1", "3.29"),
              channels := [(0, [("tx-power", "1.0"), ("rx-power", "-2.0"),
                                ("tx-current", "5.0")]),
                           (1, [("tx-power", "66.6"), ("rx-power", "66.7"),
                                ("tx-current", "66.8")])] }] := by
  exact ⟨rfl, by decide⟩

theorem get_optics_data_skip {p : Fragment} {rest : List Fragment}
    (h : evalCond p = some false) :
    get_optics_data (p :: rest) = get_optics_data rest := by
  show get_optics_go (rest.length + 1 + 1) (p :: rest) = get_optics_data rest
  simp only [get_optics_go, h]
  rfl

/-- Claim C2 amended: a fragment reached by the outer loop on which the
presence guard of line 71 evaluates to False — in particular one carrying
a `portErrorString`, or one whose `partNumberIsValid` is present and not
`"1"` — is skipped: it produces no PortRecord and the reader continues
with the remaining fragments.  (Fragments pulled from the iterator
inside a channel group, by contrast, are consumed as channels
unconditionally, as the counterexample shows.) -/
theorem outer_loop_skips_invalid_fragment (p : Fragment) (rest : List Fragment)
    (h : evalCond p = some false) :
    get_optics_data (p :: rest) = get_optics_data rest :=
  get_optics_data_skip h

/-- Claim C2 witness: skipping the error fragment in front of a valid
single-channel port. -/
theorem outer_loop_skips_invalid_fragment_witness :
    get_optics_data [fragError, fragPort1ch] = get_optics_data [fragPort1ch] :=
  outer_loop_skips_invalid_fragment fragError [fragPort1ch] (by decide)

theorem line_data_flat (ports : List PortRecord) (device : String) :
    line_data ports device =
      ports.flatMap (fun p => portLine device p :: p.channels.map (chanLine device p)) := by
  have h : ∀ (l : List PortRecord) (acc : List String),
      l.foldl (fun acc p =>
          (acc ++ [portLine device p]) ++ p.channels.map (chanLine device p)) acc =
        acc ++ l.flatMap (fun p => portLine device p :: p.channels.map (chanLine device p)) := by
    intro l
    induction l with
    | nil => intro acc; simp
    | cons p t ih =>
      intro acc
      rw [List.foldl_cons, ih]
      simp
  simpa [line_data] using h ports []

/-- Claim C4: the encoder output is the newline-join of `line_data`;
`line_data` is, for each port in input order, that port's `optics` line
immediately followed by one `optics_channels` line per channel in the
stored (ascending-index) order; and its length is N plus the sum of the
per-port channel counts. -/
theorem encoder_line_shape (ports : List PortRecord) (device : String) :
    create_lineprotocol_data ports device = String.intercalate "\n" (line_data ports device) ∧
    line_data ports device =
      ports.flatMap (fun p => portLine device p :: p.channels.map (chanLine device p)) ∧
    (line_data ports device).length =
      ports.length + (ports.map (fun p => p.channels.length)).sum := by
  refine ⟨rfl, line_data_flat ports device, ?_⟩
  rw [line_data_flat]
  induction ports with
  | nil => simp
  | cons p t ih =>
    simp only [List.flatMap_cons, List.length_append, List.length_cons, List.length_map,
      List.map_cons, List.sum_cons, ih]
    omega

theorem dcdTail_last {l : List Char} (h : dcdTail l = true) :
    ∃ c, l.getLast? = some c ∧ c.isDigit = true := by
  cases l with
  | nil => simp [dcdTail] at h
  | cons c t =>
    have hne : (c :: t) ≠ [] := by simp
    refine ⟨(c :: t).getLast hne, List.getLast?_eq_getLast _ hne, ?_⟩
    have hmem := List.getLast_mem hne
    simp only [dcdTail, Bool.and_eq_true, List.all_eq_true] at h
    exact h.2 _ hmem

theorem dcdAfterFirst_last {l : List Char} (h : dcdAfterFirst l = true) :
    ∃ c, l.getLast? = some c ∧ c.isDigit = true := by
  induction l with
  | nil => simp [dcdAfterFirst] at h
  | cons c t ih =>
    simp only [dcdAfterFirst] at h
    by_cases hc : c = ':'
    · rw [if_pos hc] at h
      obtain ⟨d, hd, hdig⟩ := dcdTail_last h
      cases t with
      | nil => simp at hd
      | cons e t' => exact ⟨d, by rw [List.getLast?_cons_cons]; exact hd, hdig⟩
    · rw [if_neg hc] at h
      simp only [Bool.and_eq_true] at h
      obtain ⟨d, hd, hdig⟩ := ih h.2
      cases t with
      | nil => simp at hd
      | cons e t' => exact ⟨d, by rw [List.getLast?_cons_cons]; exact hd, hdig⟩

theorem dcdChars_last {l : List Char} (h : dcdChars l = true) :
    ∃ c, l.getLast? = some c ∧ c.isDigit = true := by
  cases l with
  | nil => simp [dcdChars] at h
  | cons c t =>
    simp only [dcdChars, Bool.and_eq_true] at h
    obtain ⟨d, hd, hdig⟩ := dcdAfterFirst_last h.2
    cases t with
    | nil => simp at hd
    | cons e t' => exact ⟨d, by rw [List.getLast?_cons_cons]; exact hd, hdig⟩

theorem dcdChars_newline_false {l : List Char} (h : l.getLast? = some '\n') :
    dcdChars l = false := by
  by_contra hcontra
  rw [Bool.not_eq_false] at hcontra
  obtain ⟨c, hc, hdig⟩ := dcdChars_last hcontra
  rw [h] at hc
  have hcnl : c = '\n' := (Option.some.inj hc).symm
  rw [hcnl] at hdig
  exact absurd hdig (by decide)

theorem prefix12_ne (s : String) : ("1:" ++ s) ≠ s := by
  intro heq
  have hlen := congrArg String.length heq
  rw [String.length_append] at hlen
  have h2 : ("1:" : String).length = 2 := rfl
  rw [h2] at hlen
  omega

/-- Claim C7 counterexample: the raw identifier consisting of `2:5`
followed by a newline does not match the plain `digits:digits` pattern
the claim describes, yet the reader leaves it unchanged instead of
prefixing `1:`, because Python's `$` also matches just before a trailing
newline. -/
theorem port_pattern_trailing_newline_cex :
    specDigitsColonDigits "2:5\n" = false ∧
    normalizePortName "2:5\n" = "2:5\n" ∧
    normalizePortName "2:5\n" ≠ "1:" ++ "2:5\n" := by
  exact ⟨by decide, by decide, by decide⟩

/-- Claim C7 amended: the reader leaves a raw port identifier unchanged
exactly when it matches `digits:digits`, or `digits:digits` followed by
one trailing newline (Python's `$` semantics); every other identifier is
prefixed with `1:`.  In particular `3` becomes `1:3` and `2:5` stays
`2:5`. -/
theorem port_name_normalization (s : String) :
    normalizePortName "3" = "1:3" ∧ normalizePortName "2:5" = "2:5" ∧
    (normalizePortName s = s ↔
      (specDigitsColonDigits s = true ∨
        (s.data.getLast? = some '\n' ∧ dcdChars s.data.dropLast = true))) := by
  refine ⟨by decide, by decide, ?_⟩
  unfold normalizePortName
  by_cases hm : matchPortPattern s = true
  · rw [if_pos hm]
    unfold matchPortPattern dropTrailingNL at hm
    constructor
    · intro _
      by_cases hnl : s.data.getLast? = some '\n'
      · right
        rw [if_pos hnl] at hm
        exact ⟨hnl, hm⟩
      · left
        rw [if_neg hnl] at hm
        exact hm
    · intro _
      rfl
  · rw [if_neg hm]
    constructor
    · intro heq
      exact absurd heq (prefix12_ne s)
    · intro hr
      exfalso
      rcases hr with hspec | ⟨hnl, hdrop⟩
      · unfold specDigitsColonDigits at hspec
        have hnl : s.data.getLast? ≠ some '\n' := by
          intro hnl
          rw [dcdChars_newline_false hnl] at hspec
          exact absurd hspec (by simp)
        apply hm
        unfold matchPortPattern dropTrailingNL
        rw [if_neg hnl]
        exact hspec
      · apply hm
        unfold matchPortPattern dropTrailingNL
        rw [if_pos hnl]
        exact hdrop

theorem lookupKey_setKey_self {c : ChannelRecord} {k v w : String}
    (h : lookupKey c k = some v) : lookupKey (setKey c k w) k = some w := by
  induction c with
  | nil => simp [lookupKey] at h
  | cons kv t ih =>
    by_cases hk : kv.1 = k
    · simp [setKey, hk, lookupKey]
    · have h' : lookupKey t k = some v := by simpa [lookupKey, hk] using h
      simp [setKey, hk, lookupKey, ih h']

theorem lookupKey_setKey_ne {c : ChannelRecord} {k k' w : String} (hne : k' ≠ k) :
    lookupKey (setKey c k w) k' = lookupKey c k' := by
  induction c with
  | nil => rfl
  | cons kv t ih =>
    by_cases hk : kv.1 = k
    · have hk' : kv.1 ≠ k' := by rw [hk]; exact fun hcontra => hne hcontra.symm
      simp [setKey, lookupKey, hk, hk', Ne.symm hne]
    · simp [setKey, lookupKey, hk, ih]

theorem fixChannelTx_stable {c1 c' : ChannelRecord} (h : fixChannelTx c1 = some c') :
    fixChannelTx c' = some c' ∧ lookupKey c' "rx-power" = lookupKey c1 "rx-power" := by
  unfold fixChannelTx at h
  cases htx : lookupKey c1 "tx-power" with
  | none => rw [htx] at h; simp at h
  | some tx =>
    rw [htx] at h
    simp only [Option.some.injEq] at h
    by_cases htxs : tx = "-9999.000000"
    · rw [if_pos htxs] at h
      subst h
      refine ⟨?_, lookupKey_setKey_ne (by decide)⟩
      simp [fixChannelTx, lookupKey_setKey_self htx]
    · rw [if_neg htxs] at h
      subst h
      refine ⟨?_, rfl⟩
      simp [fixChannelTx, htx, htxs]

theorem fixChannel_idem {c c' : ChannelRecord} (h : fixChannel c = some c') :
    fixChannel c' = some c' := by
  unfold fixChannel at h
  cases hrx : lookupKey c "rx-power" with
  | none => rw [hrx] at h; simp at h
  | some rx =>
    rw [hrx] at h
    obtain ⟨hstable, hrx'⟩ := fixChannelTx_stable h
    unfold fixChannel
    by_cases hrxs : rx = "-9999.000000"
    · rw [if_pos hrxs] at hrx'
      have hv : lookupKey c' "rx-power" = some "-40.000000" := by
        rw [hrx']; exact lookupKey_setKey_self hrx
      simp [hv, hstable]
    · rw [if_neg hrxs] at hrx'
      have hv : lookupKey c' "rx-power" = some rx := by rw [hrx', hrx]
      simp [hv, hrxs, hstable]

theorem fixChannels_idem : ∀ {chs chs' : List (Nat × ChannelRecord)},
    fixChannels chs = some chs' → fixChannels chs' = some chs' := by
  intro chs
  induction chs with
  | nil =>
    intro chs' h
    simp only [fixChannels, Option.some.injEq] at h
    subst h
    rfl
  | cons ic t ih =>
    intro chs' h
    unfold fixChannels at h
    cases hfc : fixChannel ic.2 with
    | none => rw [hfc] at h; simp at h
    | some c1 =>
      rw [hfc] at h
      cases hft : fixChannels t with
      | none => rw [hft] at h; simp at h
      | some t1 =>
        rw [hft] at h
        simp only [Option.some.injEq] at h
        subst h
        unfold fixChannels
        simp [fixChannel_idem hfc, ih hft]

theorem fix_values_idem : ∀ {d d' : List PortRecord},
    fix_extreme_inf_values d = some d' → fix_extreme_inf_values d' = some d' := by
  intro d
  induction d with
  | nil =>
    intro d' h
    simp only [fix_extreme_inf_values, Option.some.injEq] at h
    subst h
    rfl
  | cons p t ih =>
    intro d' h
    unfold fix_extreme_inf_values at h
    cases hfc : fixChannels p.channels with
    | none => rw [hfc] at h; simp at h
    | some chs =>
      rw [hfc] at h
      cases hft : fix_extreme_inf_values t with
      | none => rw [hft] at h; simp at h
      | some t1 =>
        rw [hft] at h
        simp only [Option.some.injEq] at h
        subst h
        unfold fix_extreme_inf_values
        simp [fixChannels_idem hfc, ih hft]

/-- Claim C6: the sanitizer is idempotent: for every port list, running
`fix_extreme_inf_values` on its own (successful) output reproduces that
output, so applying it twice equals applying it once (and a failing
first application trivially agrees). -/
theorem sanitizer_idempotent (data : List PortRecord) :
    (fix_extreme_inf_values data).bind fix_extreme_inf_values =
      fix_extreme_inf_values data := by
  cases h : fix_extreme_inf_values data with
  | none => rfl
  | some d' => simpa using fix_values_idem h

theorem fixChannel_keys3 {c : ChannelRecord} (h : c.map Prod.fst = chanKeyList) :
    fixChannel c = some (c.map (fun kv => (kv.1, sanitizeVal kv.1 kv.2))) := by
  cases c with
  | nil => simp [chanKeyList] at h
  | cons x c1 =>
    cases c1 with
    | nil => simp [chanKeyList] at h
    | cons y c2 =>
      cases c2 with
      | nil => simp [chanKeyList] at h
      | cons z c3 =>
        cases c3 with
        | cons w c4 => simp [chanKeyList] at h
        | nil =>
          obtain ⟨k1, a⟩ := x
          obtain ⟨k2, b⟩ := y
          obtain ⟨k3, d⟩ := z
          simp only [List.map_cons, List.map_nil, chanKeyList, List.cons.injEq,
            and_true] at h
          obtain ⟨h1, h2, h3⟩ := h
          subst h1
          subst h2
          subst h3
          by_cases hb : b = "-9999.000000" <;> by_cases ha : a = "-9999.000000" <;>
            simp [fixChannel, fixChannelTx, lookupKey, setKey, sanitizeVal, ha, hb]

theorem fixChannels_spec {chs : List (Nat × ChannelRecord)}
    (h : ∀ ic ∈ chs, ic.2.map Prod.fst = chanKeyList) :
    fixChannels chs = some (chs.map (fun ic =>
      (ic.1, ic.2.map (fun kv => (kv.1, sanitizeVal kv.1 kv.2))))) := by
  induction chs with
  | nil => rfl
  | cons ic t ih =>
    have h1 := h ic (by simp)
    have ht : ∀ x ∈ t, x.2.map Prod.fst = chanKeyList := fun x hx => h x (by simp [hx])
    simp [fixChannels, fixChannel_keys3 h1, ih ht]

theorem fix_values_spec {data : List PortRecord}
    (h : ∀ p ∈ data, ∀ ic ∈ p.channels, ic.2.map Prod.fst = chanKeyList) :
    fix_extreme_inf_values data = some (specSanitize data) := by
  induction data with
  | nil => rfl
  | cons p t ih =>
    have hp : ∀ ic ∈ p.channels, ic.2.map Prod.fst = chanKeyList :=
      fun ic hic => h p (by simp) ic hic
    have ht : ∀ q ∈ t, ∀ ic ∈ q.channels, ic.2.map Prod.fst = chanKeyList :=
      fun q hq ic hic => h q (by simp [hq]) ic hic
    simp [fix_extreme_inf_values, fixChannels_spec hp, ih ht, specSanitize]

/-- Claim C5: on every port list of the data model (each channel dict
carrying exactly the keys `tx-power`, `rx-power`, `tx-current`), the
sanitizer never fails and returns the list with, per channel, a sentinel
`rx-power` value `-9999.000000` replaced by `-40.000000` and a sentinel
`tx-power` value `-9999.000000` replaced by `0.00`; every other value,
every key, every channel index, every port name and the
temperature/voltage fields, and the overall structure are unchanged
(`specSanitize` rewrites only via `sanitizeVal`, which is the identity
outside the two sentinel cases). -/
theorem sanitizer_exact_mapping (data : List PortRecord)
    (h : allChannelsKeysOk data = true) :
    fix_extreme_inf_values data = some (specSanitize data) := by
  apply fix_values_spec
  intro p hp ic hic
  simp only [allChannelsKeysOk, List.all_eq_true] at h
  have h2 := h p hp
  simp only [List.all_eq_true] at h2
  exact eq_of_beq (h2 ic hic)

/-- Claim C5 witness: the sanitizer on a two-port list whose first port
carries both sentinels and whose second carries none. -/
theorem sanitizer_exact_mapping_witness :
    allChannelsKeysOk [sentinelPort, samplePort] = true ∧
    fix_extreme_inf_values [sentinelPort, samplePort] =
      some (specSanitize [sentinelPort, samplePort]) :=
  ⟨by decide, sanitizer_exact_mapping [sentinelPort, samplePort] (by decide)⟩

theorem METRICSKeysOrder_eq :
    METRICSKeysOrder = ["txPower", "rxPower", "txBiasCurrent"] := by decide

theorem readMetrics_keys {f : Fragment} {c : ChannelRecord} (h : readMetrics f = some c) :
    c.map Prod.fst = chanKeyList := by
  unfold readMetrics at h
  rw [METRICSKeysOrder_eq] at h
  simp only [readMetricsKeys] at h
  cases h1 : (findall f "txPower").head? <;> rw [h1] at h
  · simp at h
  case some v1 =>
    cases h2 : (findall f "rxPower").head? <;> rw [h2] at h
    · simp at h
    case some v2 =>
      cases h3 : (findall f "txBiasCurrent").head? <;> rw [h3] at h
      · simp at h
      case some v3 =>
        simp only [Option.some.injEq] at h
        subst h
        rfl

theorem readMetricsList_spec : ∀ {l : List Fragment} {cs : List ChannelRecord},
    readMetricsList l = some cs →
      (∀ c ∈ cs, c.map Prod.fst = chanKeyList) ∧ cs.length = l.length := by
  intro l
  induction l with
  | nil =>
    intro cs h
    simp only [readMetricsList, Option.some.injEq] at h
    subst h
    exact ⟨by simp, rfl⟩
  | cons f t ih =>
    intro cs h
    unfold readMetricsList at h
    cases h1 : readMetrics f <;> rw [h1] at h
    · simp at h
    case some c =>
      cases h2 : readMetricsList t <;> rw [h2] at h
      · simp at h
      case some cs' =>
        simp only [Option.some.injEq] at h
        subst h
        obtain ⟨hk, hl⟩ := ih h2
        refine ⟨?_, by simp [hl]⟩
        intro x hx
        rcases List.mem_cons.mp hx with hx | hx
        · subst hx; exact readMetrics_keys h1
        · exact hk x hx

theorem readGroup_chan_keys {p : Fragment} {n : Nat} {rest : List Fragment}
    {chans : List (Nat × ChannelRecord)} {k : Nat}
    (h : readGroup p n rest = some (chans, k)) :
    ∀ ic ∈ chans, ic.2.map Prod.fst = chanKeyList := by
  unfold readGroup at h
  split at h
  · simp only [Option.some.injEq, Prod.mk.injEq] at h
    obtain ⟨h1, _⟩ := h
    subst h1
    intro ic hic
    simp at hic
  · split at h
    · simp at h
    · cases hml : readMetricsList (p :: rest.take (n - 1)) <;> rw [hml] at h
      · simp at h
      case some cs =>
        simp only [Option.some.injEq, Prod.mk.injEq] at h
        obtain ⟨h1, _⟩ := h
        subst h1
        intro ic hic
        obtain ⟨i, c⟩ := ic
        have hmem := (List.of_mem_zip hic).2
        exact (readMetricsList_spec hml).1 c hmem

theorem readStart_chan_keys {p : Fragment} {rest : List Fragment}
    {rec : PortRecord} {k : Nat} (h : readStart p rest = some (rec, k)) :
    ∀ ic ∈ rec.channels, ic.2.map Prod.fst = chanKeyList := by
  unfold readStart at h
  cases h1 : (findall p "port").head? <;> simp only [h1] at h
  case none => simp at h
  case some rawName =>
    cases h2 : ((findall p "numChannels").head?).bind pyInt <;> simp only [h2] at h
    case none => simp at h
    case some nc =>
      cases h3 : (if nc.toNat = 0 then some none
          else match (findall p "temp").head?, (findall p "voltageAux1").head? with
            | some t, some v => some (some (t, v))
            | _, _ => none : Option (Option (String × String))) <;> simp only [h3] at h
      case none => simp at h
      case some tv =>
        cases h4 : readGroup p nc.toNat rest <;> simp only [h4] at h
        case none => simp at h
        case some out =>
          obtain ⟨chans, k'⟩ := out
          simp only [Option.some.injEq, Prod.mk.injEq] at h
          obtain ⟨h5, _⟩ := h
          subst h5
          exact readGroup_chan_keys h4

theorem get_optics_go_keys : ∀ (fuel : Nat) {fs : List Fragment} {ports : List PortRecord},
    get_optics_go fuel fs = some ports → allChannelsKeysOk ports = true := by
  intro fuel
  induction fuel with
  | zero =>
    intro fs ports h
    cases fs with
    | nil =>
      simp only [get_optics_go, Option.some.injEq] at h
      subst h
      rfl
    | cons p rest => simp [get_optics_go] at h
  | succ f ih =>
    intro fs ports h
    cases fs with
    | nil =>
      simp only [get_optics_go, Option.some.injEq] at h
      subst h
      rfl
    | cons p rest =>
      simp only [get_optics_go] at h
      cases hev : evalCond p <;> simp only [hev] at h
      case none => simp at h
      case some b =>
        cases b with
        | false => exact ih h
        | true =>
          cases hrs : readStart p rest <;> simp only [hrs] at h
          case none => simp at h
          case some out =>
            obtain ⟨rec, k⟩ := out
            cases hgo : get_optics_go f (rest.drop k) <;> simp only [hgo] at h
            case none => simp at h
            case some tailports =>
              simp only [Option.some.injEq] at h
              subst h
              simp only [allChannelsKeysOk, List.all_cons, Bool.and_eq_true]
              constructor
              · simp only [List.all_eq_true]
                intro ic hic
                exact beq_iff_eq.mpr (readStart_chan_keys hrs ic hic)
              · simpa [allChannelsKeysOk] using ih hgo

theorem allChannelsKeysOk_forall {data : List PortRecord}
    (h : allChannelsKeysOk data = true) :
    ∀ p ∈ data, ∀ ic ∈ p.channels, ic.2.map Prod.fst = chanKeyList := by
  intro p hp ic hic
  simp only [allChannelsKeysOk, List.all_eq_true] at h
  have h2 := h p hp
  simp only [List.all_eq_true] at h2
  exact eq_of_beq (h2 ic hic)

theorem specSanitize_keys {ports : List PortRecord}
    (h : allChannelsKeysOk ports = true) :
    allChannelsKeysOk (specSanitize ports) = true := by
  simp only [allChannelsKeysOk, specSanitize, List.all_eq_true, List.mem_map]
  rintro q ⟨p, hp, rfl⟩
  simp only [List.all_eq_true, List.mem_map]
  rintro ic' ⟨ic, hic, rfl⟩
  have := allChannelsKeysOk_forall h p hp ic hic
  apply beq_iff_eq.mpr
  simpa [List.map_map, Function.comp] using this

/-- Claim C9: every port record the reader returns has, for each of its
channels, exactly the metric key set `tx-power`, `rx-power`,
`tx-current` (the reader builds every channel dict from the three
`METRICS` entries), and the sanitizer preserves this invariant: its
output's channels carry the same key set. -/
theorem channel_key_set_invariant (fs : List Fragment) (ports : List PortRecord)
    (h : get_optics_data fs = some ports) :
    allChannelsKeysOk ports = true ∧
    ∀ ports', fix_extreme_inf_values ports = some ports' →
      allChannelsKeysOk ports' = true := by
  have h1 : allChannelsKeysOk ports = true := get_optics_go_keys _ h
  refine ⟨h1, ?_⟩
  intro ports' h2
  have h3 : fix_extreme_inf_values ports = some (specSanitize ports) :=
    fix_values_spec (allChannelsKeysOk_forall h1)
  rw [h2] at h3
  have h4 : ports' = specSanitize ports := Option.some.inj h3
  subst h4
  exact specSanitize_keys h1

/-- Claim C9 witness: the invariant on the parse of a sentinel-carrying
single-channel port and on its sanitized form. -/
theorem channel_key_set_invariant_witness :
    allChannelsKeysOk [portSentinelParsed] = true ∧
    allChannelsKeysOk [portSentinelFixed] = true := by
  have h := channel_key_set_invariant [fragPortSentinel] [portSentinelParsed] (by decide)
  exact ⟨h.1, h.2 [portSentinelFixed] (by decide)⟩

theorem readMetrics_of_present {f : Fragment} (h : metricsPresent f = true) :
    ∃ c, readMetrics f = some c := by
  unfold metricsPresent at h
  rw [METRICSKeysOrder_eq] at h
  simp only [List.all_cons, List.all_nil, Bool.and_eq_true, Bool.and_true, and_true] at h
  obtain ⟨h1, h2, h3⟩ := h
  obtain ⟨v1, hv1⟩ := Option.isSome_iff_exists.mp h1
  obtain ⟨v2, hv2⟩ := Option.isSome_iff_exists.mp h2
  obtain ⟨v3, hv3⟩ := Option.isSome_iff_exists.mp h3
  refine ⟨[(prettyOf "txPower", v1), (prettyOf "rxPower", v2),
           (prettyOf "txBiasCurrent", v3)], ?_⟩
  unfold readMetrics
  rw [METRICSKeysOrder_eq]
  simp [readMetricsKeys, hv1, hv2, hv3]

theorem readMetricsList_of_all : ∀ {l : List Fragment}, l.all metricsPresent = true →
    ∃ cs, readMetricsList l = some cs ∧ cs.length = l.length := by
  intro l
  induction l with
  | nil => intro _; exact ⟨[], rfl, rfl⟩
  | cons f t ih =>
    intro h
    simp only [List.all_cons, Bool.and_eq_true] at h
    obtain ⟨c, hc⟩ := readMetrics_of_present h.1
    obtain ⟨cs, hcs, hlen⟩ := ih h.2
    exact ⟨c :: cs, by simp [readMetricsList, hc, hcs], by simp [hlen]⟩

theorem readGroup_exact {p : Fragment} {r L : List Fragment}
    (h : (p :: r).all metricsPresent = true) :
    ∃ chans, readGroup p (r.length + 1) (r ++ L) = some (chans, r.length) := by
  obtain ⟨cs, hcs, hlen⟩ := readMetricsList_of_all h
  refine ⟨(List.range (r.length + 1)).zip cs, ?_⟩
  unfold readGroup
  rw [if_neg (Nat.succ_ne_zero _)]
  simp only [Nat.add_sub_cancel]
  have hguard : ¬ ((r ++ L).length < r.length) := by
    simp only [List.length_append]
    omega
  rw [if_neg hguard, List.take_left, hcs]

theorem readStart_of_grpOk {p : Fragment} {r : List Fragment} (L : List Fragment)
    (h : itemOk (.grp p r) = true) :
    ∃ rec, readStart p (r ++ L) = some (rec, r.length) := by
  unfold itemOk at h
  simp only [Bool.and_eq_true] at h
  obtain ⟨⟨⟨⟨⟨hev, hport⟩, hnc⟩, htemp⟩, hvolt⟩, hall⟩ := h
  obtain ⟨rawName, hrn⟩ := Option.isSome_iff_exists.mp hport
  have hnc' : ((findall p "numChannels").head?).bind pyInt = some ((r.length : Int) + 1) :=
    eq_of_beq hnc
  obtain ⟨tval, htv⟩ := Option.isSome_iff_exists.mp htemp
  obtain ⟨vval, hvv⟩ := Option.isSome_iff_exists.mp hvolt
  obtain ⟨chans, hrg⟩ := readGroup_exact (L := L) hall
  have htn : ((r.length : Int) + 1).toNat = r.length + 1 := by omega
  refine ⟨{ name := normalizePortName rawName, tv := some (tval, vval),
            channels := chans }, ?_⟩
  unfold readStart
  simp only [hrn, hnc', htn]
  rw [if_neg (Nat.succ_ne_zero r.length)]
  simp only [htv, hvv, hrg]

/-- Claim C1: on every valid device report (a sequence of items, each
either a fragment the line-71 guard skips or a port group whose first
fragment passes the guard, carries the required tags, and whose
`numChannels` equals the group size), the reader succeeds and returns
exactly one PortRecord per group: each group's first fragment is channel
0, its remaining `numChannels - 1` fragments are taken from the
iterator, and the number of PortRecords equals the number of
group-starting fragments. -/
theorem reader_counts_groups (items : List OpticItem) (h : seqOk items = true) :
    ∃ ports, get_optics_data (flattenItems items) = some ports ∧
      ports.length = (items.filter OpticItem.isGrp).length := by
  induction items with
  | nil => exact ⟨[], rfl, rfl⟩
  | cons it t ih =>
    simp only [seqOk, List.all_cons, Bool.and_eq_true] at h
    obtain ⟨hit, ht⟩ := h
    obtain ⟨ports, hports, hlen⟩ := ih ht
    cases it with
    | skip f =>
      have hev : evalCond f = some false := eq_of_beq hit
      have hflat : flattenItems (.skip f :: t) = f :: flattenItems t := by
        simp [flattenItems, OpticItem.frags]
      refine ⟨ports, ?_, ?_⟩
      · rw [hflat, get_optics_data_skip hev]
        exact hports
      · rw [hlen]
        simp [List.filter_cons, OpticItem.isGrp]
    | grp f r =>
      have hit' := hit
      simp only [itemOk, Bool.and_eq_true] at hit'
      obtain ⟨⟨⟨⟨⟨hev, _⟩, _⟩, _⟩, _⟩, _⟩ := hit'
      have hev' : evalCond f = some true := eq_of_beq hev
      obtain ⟨rec, hrs⟩ := readStart_of_grpOk (flattenItems t) hit
      have hflat : flattenItems (.grp f r :: t) = f :: (r ++ flattenItems t) := by
        simp [flattenItems, OpticItem.frags]
      refine ⟨rec :: ports, ?_, ?_⟩
      · rw [hflat, get_optics_data_cons]
        simp only [hev', hrs, List.drop_left, hports]
      · simp [List.filter_cons, OpticItem.isGrp, hlen]

/-- Claim C1 witness: a report with a two-channel group, a skipped error
fragment and a one-channel group parses to exactly two PortRecords. -/
theorem reader_counts_groups_witness :
    ∃ ports, get_optics_data (flattenItems witnessItems) = some ports ∧
      ports.length = 2 := by
  obtain ⟨ports, h1, h2⟩ := reader_counts_groups witnessItems (by decide)
  exact ⟨ports, h1, h2.trans (by decide)⟩
